import Mathlib

/-!
Shallow embedding of the audio transcription pipeline of `src/main.py`
(function `transcribe_audio`, lines 76-110), together with a model of the
silence-based segmenter it calls.

The remote recognizer (`recognizer.recognize_google`) is modelled by its
observable outcome on each attempt: it returns text, raises
`sr.UnknownValueError`, or raises `sr.RequestError` carrying a message
string.  Side effects (temporary chunk files, `time.sleep`) are recorded in
an explicit event trace.
-/

namespace GetToThePoint

/-- Outcome of one call to the remote recognizer for a given chunk's audio
data: recognized text, `UnknownValueError` (audio not understood), or
`RequestError e` with message `e`. -/
inductive RecogResult where
  | success (text : String)
  | unknownValue
  | requestError (msg : String)
  deriving DecidableEq

/-- Observable side effects of `transcribe_audio`: creation of the temporary
per-chunk file `temp_chunk_{i}.wav`, a recognition attempt (chunk index and
zero-based attempt number), `time.sleep(retry_delay)`, and
`os.remove(temp_chunk_file)`. -/
inductive Event where
  | createTemp (i : Nat)
  | attempt (chunk attemptIdx : Nat)
  | sleep (seconds : Int)
  | removeTemp (i : Nat)
  deriving DecidableEq

/-- `leadsWith pat s` is true when `s` starts with `pat` (character lists). -/
def leadsWith : List Char → List Char → Bool
  | [], _ => true
  | _ :: _, [] => false
  | a :: as, b :: bs => a == b && leadsWith as bs

/-- `occursIn pat s` is true when `pat` occurs contiguously inside `s`. -/
def occursIn (pat : List Char) : List Char → Bool
  | [] => leadsWith pat []
  | c :: rest => leadsWith pat (c :: rest) || occursIn pat rest

/-- Python's substring test `pat in s` on strings. -/
def strContains (s pat : String) : Bool :=
  occursIn pat.data s.data

/-- The retry loop `for attempt in range(max_retries)` of `transcribe_audio`
(src/main.py lines 92-106) for one chunk, with the attempt counter and the
number of remaining iterations explicit.  Returns the text appended to the
transcript by this chunk and the trace of attempt/sleep events.
On success the code appends `" "` plus the recognized text and breaks; on
`UnknownValueError` it appends the fixed placeholder and breaks; on a
`RequestError` whose message contains `"Broken pipe"` it sleeps
`retry_delay` seconds and lets the loop continue; on any other
`RequestError` it appends the error placeholder and breaks. -/
def retryLoop (resp : Nat → RecogResult) (chunkIdx : Nat) (retry_delay : Int) :
    Nat → Nat → String × List Event
  | _, 0 => ("", [])
  | attemptIdx, n + 1 =>
    match resp attemptIdx with
    | .success t => (" " ++ t, [.attempt chunkIdx attemptIdx])
    | .unknownValue =>
        (" [Could not understand audio chunk] ", [.attempt chunkIdx attemptIdx])
    | .requestError m =>
        if strContains m "Broken pipe" then
          let p := retryLoop resp chunkIdx retry_delay (attemptIdx + 1) n
          (p.1, .attempt chunkIdx attemptIdx :: .sleep retry_delay :: p.2)
        else
          (" [Could not transcribe audio chunk: " ++ m ++ "] ",
           [.attempt chunkIdx attemptIdx])

/-- Processing of one chunk (src/main.py lines 84-108): export the chunk to
`temp_chunk_{i}.wav`, run the retry loop (`range(max_retries)`; Python's
`range` is empty for a non-positive argument, hence `max_retries.toNat`),
then `os.remove` the temporary file. -/
def processChunk (i : Nat) (resp : Nat → RecogResult)
    (max_retries retry_delay : Int) : String × List Event :=
  let p := retryLoop resp i retry_delay 0 max_retries.toNat
  (p.1, .createTemp i :: (p.2 ++ [.removeTemp i]))

/-- The `for i, chunk in enumerate(chunks)` loop of `transcribe_audio`,
starting at chunk index `i`: transcript pieces are accumulated by `+=` in
chunk order, so the result is the in-order concatenation. -/
def processFrom (max_retries retry_delay : Int) :
    Nat → List (Nat → RecogResult) → String × List Event
  | _, [] => ("", [])
  | i, c :: rest =>
    let p := processChunk i c max_retries retry_delay
    let q := processFrom max_retries retry_delay (i + 1) rest
    (p.1 ++ q.1, p.2 ++ q.2)

/-- `transcribe_audio` of src/main.py after segmentation: each chunk is
identified with the recognizer's response function for it (attempt number ↦
outcome).  Defaults in the source are `max_retries=3`, `retry_delay=5`.
Returns the final transcript string and the event trace. -/
def transcribe_audio (chunks : List (Nat → RecogResult))
    (max_retries retry_delay : Int) : String × List Event :=
  processFrom max_retries retry_delay 0 chunks

/-- True exactly on `sleep` events. -/
def isSleep : Event → Bool
  | .sleep _ => true
  | _ => false

/-- True exactly on recognition-attempt events. -/
def isAttempt : Event → Bool
  | .attempt _ _ => true
  | _ => false

/-- Number of `time.sleep` calls in a trace. -/
def countSleeps (l : List Event) : Nat := l.countP isSleep

/-- Number of recognition attempts in a trace. -/
def countAttempts (l : List Event) : Nat := l.countP isAttempt

/-- The event trace produced by a chunk whose every attempt fails with a
broken-pipe `RequestError`: attempts alternating with sleeps, one sleep
after every attempt including the last. -/
def brokenTrace (i : Nat) (rd : Int) : Nat → Nat → List Event
  | _, 0 => []
  | a, n + 1 => .attempt i a :: .sleep rd :: brokenTrace i rd (a + 1) n

/-- Trace of a run in which no recognition attempt is ever made: each chunk
only creates and removes its temporary file. -/
def tempOnlyTrace : Nat → Nat → List Event
  | _, 0 => []
  | i, n + 1 => .createTemp i :: .removeTemp i :: tempOnlyTrace (i + 1) n

/-- A chunk-transcriber result, i.e. an outcome that yields text for the
chunk: recognized text, the unintelligible placeholder, or the
non-broken-pipe transport-error placeholder.  (Broken-pipe exhaustion
yields no result.) -/
inductive ChunkResult where
  | recognized (t : String)
  | unintelligible
  | otherFailed (msg : String)
  deriving DecidableEq

/-- Text segment the code appends to the transcript for a result. -/
def resultSegment : ChunkResult → String
  | .recognized t => " " ++ t
  | .unintelligible => " [Could not understand audio chunk] "
  | .otherFailed m => " [Could not transcribe audio chunk: " ++ m ++ "] "

/-- Recognizer response function realizing a chunk result on every attempt. -/
def respOfResult : ChunkResult → Nat → RecogResult
  | .recognized t, _ => .success t
  | .unintelligible, _ => .unknownValue
  | .otherFailed m, _ => .requestError m

/-- A result is well formed when an `otherFailed` message is not a
broken-pipe message (otherwise the code would retry instead). -/
def resultOk : ChunkResult → Bool
  | .otherFailed m => !(strContains m "Broken pipe")
  | _ => true

/-- In-order concatenation of a list of transcript segments. -/
def concatSegs : List String → String
  | [] => ""
  | s :: rest => s ++ concatSegs rest

/-- Modelled from the spec: the Segmenter (the call
`split_on_silence(audio, min_silence_len=500, silence_thresh=-40)` at
src/main.py line 81 is pydub library code, not part of this repository).
Audio is a list of per-millisecond loudness levels in dBFS; a sample is
silent when its level is below -40 dBFS. -/
def silentSample (x : Int) : Bool := decide (x < -40)

/-- Maximal runs of `true` in a boolean list, as `(start, length)` pairs;
`i` is the index of the head, `cur` the run currently open. -/
def runsAux : List Bool → Nat → Option (Nat × Nat) → List (Nat × Nat)
  | [], _, none => []
  | [], _, some r => [r]
  | b :: rest, i, none =>
    if b then runsAux rest (i + 1) (some (i, 1)) else runsAux rest (i + 1) none
  | b :: rest, i, some r =>
    if b then runsAux rest (i + 1) (some (r.1, r.2 + 1))
    else r :: runsAux rest (i + 1) none

/-- Modelled from the spec: detected silence gaps are the maximal runs of
silent samples lasting at least the minimum silence duration (500 ms). -/
def silenceGaps (audio : List Int) : List (Nat × Nat) :=
  (runsAux (audio.map silentSample) 0 none).filter fun r => 500 ≤ r.2

/-- Modelled from the spec: the chunks are the maximal nonempty runs of
audio bounded by the given silence gaps; `pos` is the current position. -/
def chunksFrom (audio : List Int) : Nat → List (Nat × Nat) → List (List Int)
  | pos, [] => if pos < audio.length then [audio.drop pos] else []
  | pos, g :: rest =>
    let pre := (audio.drop pos).take (g.1 - pos)
    if pre.isEmpty then chunksFrom audio (g.1 + g.2) rest
    else pre :: chunksFrom audio (g.1 + g.2) rest

/-- Modelled from the spec: the Segmenter splits the audio stream at its
detected silence gaps into an ordered sequence of chunks. -/
def split_on_silence (audio : List Int) : List (List Int) :=
  chunksFrom audio 0 (silenceGaps audio)

/-! ### Helper lemmas -/

/-- A chunk that fails with a broken-pipe message on every attempt runs the
full retry loop: no text, and an attempt followed by a sleep in every
iteration. -/
theorem retryLoop_broken (m : String) (h : strContains m "Broken pipe" = true)
    (resp : Nat → RecogResult) (hr : ∀ a, resp a = RecogResult.requestError m)
    (i : Nat) (rd : Int) :
    ∀ n a, retryLoop resp i rd a n = ("", brokenTrace i rd a n)
  | 0, _ => rfl
  | n + 1, a => by
    simp only [retryLoop, hr, h, if_true, brokenTrace]
    rw [retryLoop_broken m h resp hr i rd n (a + 1)]

theorem countSleeps_brokenTrace (i : Nat) (rd : Int) :
    ∀ n a, countSleeps (brokenTrace i rd a n) = n
  | 0, _ => rfl
  | n + 1, a => by
    have ih := countSleeps_brokenTrace i rd n (a + 1)
    simp only [countSleeps] at ih ⊢
    simp [brokenTrace, List.countP_cons, isSleep, ih]

theorem countAttempts_brokenTrace (i : Nat) (rd : Int) :
    ∀ n a, countAttempts (brokenTrace i rd a n) = n
  | 0, _ => rfl
  | n + 1, a => by
    have ih := countAttempts_brokenTrace i rd n (a + 1)
    simp only [countAttempts] at ih ⊢
    simp [brokenTrace, List.countP_cons, isAttempt, ih]

/-- Splitting the chunk loop at any point: the transcript of a concatenated
chunk list is the concatenation of the two transcripts. -/
theorem processFrom_append (mr rd : Int) :
    ∀ (l1 l2 : List (Nat → RecogResult)) (i : Nat),
    (processFrom mr rd i (l1 ++ l2)).1 =
      (processFrom mr rd i l1).1 ++ (processFrom mr rd (i + l1.length) l2).1
  | [], l2, i => by simp [processFrom, String.empty_append]
  | c :: l1, l2, i => by
    simp only [List.cons_append, processFrom, List.length_cons, List.append_eq]
    rw [processFrom_append mr rd l1 l2 (i + 1)]
    have harith : i + 1 + l1.length = i + (l1.length + 1) := by omega
    rw [harith, String.append_assoc]

/-- With at least one allowed attempt, a chunk realizing a well-formed
result contributes exactly its segment and a single attempt. -/
theorem processChunk_result (r : ChunkResult) (hok : resultOk r = true) (i : Nat)
    (mr rd : Int) (hmr : 1 ≤ mr) :
    processChunk i (respOfResult r) mr rd =
      (resultSegment r,
       [Event.createTemp i, Event.attempt i 0, Event.removeTemp i]) := by
  obtain ⟨n, hn⟩ : ∃ n, mr.toNat = n + 1 := ⟨mr.toNat - 1, by omega⟩
  unfold processChunk
  rw [hn]
  cases r with
  | recognized t => rfl
  | unintelligible => rfl
  | otherFailed m =>
    simp only [resultOk, Bool.not_eq_true'] at hok
    simp [retryLoop, respOfResult, hok, resultSegment]

theorem processFrom_results (mr rd : Int) (hmr : 1 ≤ mr) :
    ∀ (rs : List ChunkResult), (∀ r ∈ rs, resultOk r = true) → ∀ i,
    (processFrom mr rd i (rs.map respOfResult)).1 = concatSegs (rs.map resultSegment)
  | [], _, _ => rfl
  | r :: rs, hok, i => by
    simp only [List.map_cons, processFrom, concatSegs]
    rw [processChunk_result r (hok r (List.mem_cons_self r _)) i mr rd hmr,
      processFrom_results mr rd hmr rs
        (fun x hx => hok x (List.mem_cons_of_mem r hx)) (i + 1)]

/-- Every chunk index inside the processed range has its temporary file
created and removed in the trace. -/
theorem mem_processFrom (mr rd : Int) :
    ∀ (chunks : List (Nat → RecogResult)) (i0 i : Nat),
    i0 ≤ i → i < i0 + chunks.length →
    Event.createTemp i ∈ (processFrom mr rd i0 chunks).2 ∧
    Event.removeTemp i ∈ (processFrom mr rd i0 chunks).2
  | [], _, _, h1, h2 => absurd h2 (by simp; omega)
  | c :: rest, i0, i, h1, h2 => by
    simp only [processFrom, List.mem_append]
    by_cases hcase : i = i0
    · subst hcase
      constructor
      · exact Or.inl (by simp [processChunk])
      · exact Or.inl (by simp [processChunk])
    · have h1' : i0 + 1 ≤ i := by omega
      have h2' : i < i0 + 1 + rest.length := by
        simp only [List.length_cons] at h2; omega
      have hmem := mem_processFrom mr rd rest (i0 + 1) i h1' h2'
      exact ⟨Or.inr hmem.1, Or.inr hmem.2⟩

theorem processFrom_noRetries (mr rd : Int) (h0 : mr.toNat = 0) :
    ∀ (chunks : List (Nat → RecogResult)) (i : Nat),
    processFrom mr rd i chunks = ("", tempOnlyTrace i chunks.length)
  | [], _ => rfl
  | c :: rest, i => by
    simp only [processFrom, processChunk, h0, retryLoop, List.length_cons]
    rw [processFrom_noRetries mr rd h0 rest (i + 1)]
    simp [tempOnlyTrace]

theorem countAttempts_tempOnly :
    ∀ (n i : Nat), countAttempts (tempOnlyTrace i n) = 0
  | 0, _ => rfl
  | n + 1, i => by
    have ih := countAttempts_tempOnly n (i + 1)
    simp only [countAttempts] at ih ⊢
    simp [tempOnlyTrace, List.countP_cons, isAttempt, ih]

/-! ### Claim theorems -/

/-- C1, counterexample: with `max_retries = 1` and a recognizer that raises
a broken-pipe `RequestError` on every attempt, `transcribe_audio` makes
exactly one attempt (the final one) and nevertheless performs a sleep,
contradicting the claim that no sleep is performed after the final
attempt. -/
theorem C1_final_sleep_counterexample :
    countAttempts (transcribe_audio
      [fun _ => RecogResult.requestError "Broken pipe"] 1 5).2 = 1 ∧
    ¬ countSleeps (transcribe_audio
      [fun _ => RecogResult.requestError "Broken pipe"] 1 5).2 = 0 := by
  constructor <;> decide

/-- C1, amended: for every chunk whose recognition call raises a
broken-pipe `RequestError` on every attempt and every positive
`max_retries`, `transcribe_audio` makes exactly `max_retries` recognition
attempts for that chunk, appends no text, and sleeps `retry_delay` seconds
after every failed attempt — including the final one — for `max_retries`
sleeps in total. -/
theorem C1_broken_pipe_retry_schedule (m : String)
    (h : strContains m "Broken pipe" = true)
    (resp : Nat → RecogResult) (hr : ∀ a, resp a = RecogResult.requestError m)
    (i : Nat) (mr rd : Int) (_hmr : 1 ≤ mr) :
    processChunk i resp mr rd =
      ("", Event.createTemp i ::
        (brokenTrace i rd 0 mr.toNat ++ [Event.removeTemp i])) ∧
    countAttempts (brokenTrace i rd 0 mr.toNat) = mr.toNat ∧
    countSleeps (brokenTrace i rd 0 mr.toNat) = mr.toNat := by
  refine ⟨?_, countAttempts_brokenTrace i rd mr.toNat 0,
    countSleeps_brokenTrace i rd mr.toNat 0⟩
  unfold processChunk
  rw [retryLoop_broken m h resp hr i rd mr.toNat 0]

/-- Witness for C1 (amended) at `max_retries = 2`, `retry_delay = 5`. -/
theorem C1_broken_pipe_retry_schedule_witness :
    processChunk 0 (fun _ => RecogResult.requestError "Broken pipe") 2 5 =
      ("", Event.createTemp 0 ::
        (brokenTrace 0 5 0 (2 : Int).toNat ++ [Event.removeTemp 0])) ∧
    countAttempts (brokenTrace 0 5 0 (2 : Int).toNat) = (2 : Int).toNat ∧
    countSleeps (brokenTrace 0 5 0 (2 : Int).toNat) = (2 : Int).toNat :=
  C1_broken_pipe_retry_schedule "Broken pipe" (by decide) _ (fun _ => rfl)
    0 2 5 (by decide)

/-- C2: for three chunks answering "hello", unintelligible, "world" (with
the default `max_retries = 3`, `retry_delay = 5`), the transcript is exactly
`" hello [Could not understand audio chunk]  world"`, with a leading space
and a double space before "world". -/
theorem C2_three_chunk_scenario :
    (transcribe_audio
      [fun _ => RecogResult.success "hello",
       fun _ => RecogResult.unknownValue,
       fun _ => RecogResult.success "world"] 3 5).1 =
      " hello [Could not understand audio chunk]  world" := by
  decide

/-- C3: a chunk whose every recognition attempt raises a broken-pipe
`RequestError` contributes no text and no placeholder to the transcript,
and processing continues with the remaining chunks: the transcript of the
run equals the transcript of the run on the remaining chunks alone. -/
theorem C3_broken_pipe_exhaustion_silent (m : String)
    (h : strContains m "Broken pipe" = true)
    (resp : Nat → RecogResult) (hr : ∀ a, resp a = RecogResult.requestError m)
    (i : Nat) (mr rd : Int) (rest : List (Nat → RecogResult)) :
    (processChunk i resp mr rd).1 = "" ∧
    (processFrom mr rd i (resp :: rest)).1 =
      (processFrom mr rd (i + 1) rest).1 := by
  have h1 : (processChunk i resp mr rd).1 = "" := by
    unfold processChunk
    rw [retryLoop_broken m h resp hr i rd mr.toNat 0]
  refine ⟨h1, ?_⟩
  simp only [processFrom]
  rw [h1, String.empty_append]

/-- Witness for C3: a broken-pipe chunk followed by a successful chunk. -/
theorem C3_broken_pipe_exhaustion_silent_witness :
    (processChunk 0 (fun _ => RecogResult.requestError "Broken pipe") 3 5).1 = "" ∧
    (processFrom 3 5 0
      ((fun _ => RecogResult.requestError "Broken pipe") ::
        [fun _ => RecogResult.success "ok"])).1 =
      (processFrom 3 5 1 [fun _ => RecogResult.success "ok"]).1 :=
  C3_broken_pipe_exhaustion_silent "Broken pipe" (by decide) _ (fun _ => rfl)
    0 3 5 [fun _ => RecogResult.success "ok"]

/-- C4: for every sequence of chunk-transcriber results (recognized text,
unintelligible, or a non-broken-pipe transport failure) and positive
`max_retries`, the transcript is exactly the in-order concatenation of one
segment per result, there are as many segments as results, every segment
starts with a space, and the transcript is built append-only: the
transcript of any initial segment of the chunk list is a prefix of the
final transcript. -/
theorem C4_aggregator_order (rs : List ChunkResult) (mr rd : Int)
    (hmr : 1 ≤ mr) (hok : ∀ r ∈ rs, resultOk r = true) :
    (transcribe_audio (rs.map respOfResult) mr rd).1 =
      concatSegs (rs.map resultSegment) ∧
    (rs.map resultSegment).length = rs.length ∧
    (∀ s ∈ rs.map resultSegment, ∃ t, s = " " ++ t) ∧
    (∀ k, ∃ suffix, (transcribe_audio (rs.map respOfResult) mr rd).1 =
      (transcribe_audio ((rs.take k).map respOfResult) mr rd).1 ++ suffix) := by
  refine ⟨processFrom_results mr rd hmr rs hok 0, List.length_map rs resultSegment, ?_, ?_⟩
  · intro s hs
    obtain ⟨r, _, rfl⟩ := List.mem_map.mp hs
    cases r with
    | recognized t => exact ⟨t, rfl⟩
    | unintelligible => exact ⟨"[Could not understand audio chunk] ", by decide⟩
    | otherFailed m =>
      refine ⟨"[Could not transcribe audio chunk: " ++ m ++ "] ", ?_⟩
      show " [Could not transcribe audio chunk: " ++ m ++ "] " = _
      rw [show (" [Could not transcribe audio chunk: " : String) =
        " " ++ "[Could not transcribe audio chunk: " from by decide]
      rw [String.append_assoc " " "[Could not transcribe audio chunk: " m,
        String.append_assoc]
  · intro k
    refine ⟨(processFrom mr rd (0 + ((rs.take k).map respOfResult).length)
      ((rs.drop k).map respOfResult)).1, ?_⟩
    unfold transcribe_audio
    conv_lhs => rw [show rs.map respOfResult =
      (rs.take k).map respOfResult ++ (rs.drop k).map respOfResult from by
        rw [← List.map_append, List.take_append_drop]]
    exact processFrom_append mr rd _ _ 0

/-- Witness for C4 on a two-result sequence. -/
theorem C4_aggregator_order_witness :
    (transcribe_audio
      ([ChunkResult.recognized "hello", ChunkResult.unintelligible].map respOfResult)
      3 5).1 =
      concatSegs
        ([ChunkResult.recognized "hello", ChunkResult.unintelligible].map resultSegment) :=
  (C4_aggregator_order [ChunkResult.recognized "hello", ChunkResult.unintelligible]
    3 5 (by decide) (by decide)).1

/-- C5: a chunk whose first recognition attempt reports "audio not
understood" (`UnknownValueError`) yields exactly one attempt, no sleep, and
the fixed placeholder `" [Could not understand audio chunk] "`, with the
temporary file created and removed around it. -/
theorem C5_unintelligible_single_attempt (resp : Nat → RecogResult)
    (h0 : resp 0 = RecogResult.unknownValue) (i : Nat) (mr rd : Int)
    (hmr : 1 ≤ mr) :
    processChunk i resp mr rd =
      (" [Could not understand audio chunk] ",
       [Event.createTemp i, Event.attempt i 0, Event.removeTemp i]) ∧
    countAttempts (processChunk i resp mr rd).2 = 1 ∧
    countSleeps (processChunk i resp mr rd).2 = 0 := by
  obtain ⟨n, hn⟩ : ∃ n, mr.toNat = n + 1 := ⟨mr.toNat - 1, by omega⟩
  have heq : processChunk i resp mr rd =
      (" [Could not understand audio chunk] ",
       [Event.createTemp i, Event.attempt i 0, Event.removeTemp i]) := by
    unfold processChunk
    rw [hn]
    simp [retryLoop, h0]
  refine ⟨heq, ?_, ?_⟩ <;>
    simp [heq, countAttempts, countSleeps, List.countP_cons, isAttempt, isSleep]

/-- Witness for C5 at chunk index 0, `max_retries = 3`. -/
theorem C5_unintelligible_single_attempt_witness :
    processChunk 0 (fun _ => RecogResult.unknownValue) 3 5 =
      (" [Could not understand audio chunk] ",
       [Event.createTemp 0, Event.attempt 0 0, Event.removeTemp 0]) ∧
    countAttempts (processChunk 0 (fun _ => RecogResult.unknownValue) 3 5).2 = 1 ∧
    countSleeps (processChunk 0 (fun _ => RecogResult.unknownValue) 3 5).2 = 0 :=
  C5_unintelligible_single_attempt _ rfl 0 3 5 (by decide)

/-- C6: a chunk whose first recognition attempt raises a `RequestError`
whose message does not contain "Broken pipe" yields exactly one attempt,
no sleep, and the placeholder containing that message verbatim. -/
theorem C6_other_transport_error (resp : Nat → RecogResult) (m : String)
    (h0 : resp 0 = RecogResult.requestError m)
    (hbp : strContains m "Broken pipe" = false) (i : Nat) (mr rd : Int)
    (hmr : 1 ≤ mr) :
    processChunk i resp mr rd =
      (" [Could not transcribe audio chunk: " ++ m ++ "] ",
       [Event.createTemp i, Event.attempt i 0, Event.removeTemp i]) ∧
    countAttempts (processChunk i resp mr rd).2 = 1 ∧
    countSleeps (processChunk i resp mr rd).2 = 0 := by
  obtain ⟨n, hn⟩ : ∃ n, mr.toNat = n + 1 := ⟨mr.toNat - 1, by omega⟩
  have heq : processChunk i resp mr rd =
      (" [Could not transcribe audio chunk: " ++ m ++ "] ",
       [Event.createTemp i, Event.attempt i 0, Event.removeTemp i]) := by
    unfold processChunk
    rw [hn]
    simp [retryLoop, h0, hbp]
  refine ⟨heq, ?_, ?_⟩ <;>
    simp [heq, countAttempts, countSleeps, List.countP_cons, isAttempt, isSleep]

/-- Witness for C6 with the message "recognition request failed". -/
theorem C6_other_transport_error_witness :
    processChunk 0 (fun _ => RecogResult.requestError "recognition request failed") 3 5 =
      (" [Could not transcribe audio chunk: " ++ "recognition request failed" ++ "] ",
       [Event.createTemp 0, Event.attempt 0 0, Event.removeTemp 0]) ∧
    countAttempts (processChunk 0
      (fun _ => RecogResult.requestError "recognition request failed") 3 5).2 = 1 ∧
    countSleeps (processChunk 0
      (fun _ => RecogResult.requestError "recognition request failed") 3 5).2 = 0 :=
  C6_other_transport_error _ "recognition request failed" rfl (by decide) 0 3 5 (by decide)

/-- C7: for every chunk and every recognizer behavior, the per-chunk trace
begins with the creation of the chunk's temporary file and ends with its
removal, and in a full run every processed chunk index has both its
creation and its removal in the trace. -/
theorem C7_temp_file_lifecycle (resp : Nat → RecogResult) (i : Nat)
    (mr rd : Int) (chunks : List (Nat → RecogResult)) (hi : i < chunks.length) :
    (processChunk i resp mr rd).2.head? = some (Event.createTemp i) ∧
    (processChunk i resp mr rd).2.getLast? = some (Event.removeTemp i) ∧
    Event.createTemp i ∈ (transcribe_audio chunks mr rd).2 ∧
    Event.removeTemp i ∈ (transcribe_audio chunks mr rd).2 := by
  have hmem := mem_processFrom mr rd chunks 0 i (Nat.zero_le i) (by omega)
  refine ⟨rfl, ?_, hmem.1, hmem.2⟩
  show (Event.createTemp i ::
    ((retryLoop resp i rd 0 mr.toNat).2 ++ [Event.removeTemp i])).getLast? =
    some (Event.removeTemp i)
  rw [show Event.createTemp i ::
      ((retryLoop resp i rd 0 mr.toNat).2 ++ [Event.removeTemp i]) =
      (Event.createTemp i :: (retryLoop resp i rd 0 mr.toNat).2) ++
        [Event.removeTemp i] from rfl,
    List.getLast?_concat]

/-- Witness for C7: second chunk of a two-chunk run, `max_retries = 3`. -/
theorem C7_temp_file_lifecycle_witness :
    (processChunk 1 (fun _ => RecogResult.unknownValue) 3 5).2.head? =
      some (Event.createTemp 1) ∧
    (processChunk 1 (fun _ => RecogResult.unknownValue) 3 5).2.getLast? =
      some (Event.removeTemp 1) ∧
    Event.createTemp 1 ∈ (transcribe_audio
      [fun _ => RecogResult.success "a", fun _ => RecogResult.unknownValue] 3 5).2 ∧
    Event.removeTemp 1 ∈ (transcribe_audio
      [fun _ => RecogResult.success "a", fun _ => RecogResult.unknownValue] 3 5).2 :=
  C7_temp_file_lifecycle (fun _ => RecogResult.unknownValue) 1 3 5
    [fun _ => RecogResult.success "a", fun _ => RecogResult.unknownValue] (by decide)

/-- C8: `transcribe_audio` is deterministic — two runs on the same chunk
sequence, the same `max_retries` and the same `retry_delay`, with the same
assignment of recognizer responses, produce identical transcripts. -/
theorem C8_deterministic_transcripts (c1 c2 : List (Nat → RecogResult))
    (m1 m2 r1 r2 : Int) (hc : c1 = c2) (hm : m1 = m2) (hr : r1 = r2) :
    (transcribe_audio c1 m1 r1).1 = (transcribe_audio c2 m2 r2).1 := by
  subst hc; subst hm; subst hr; rfl

/-- Witness for C8 on a concrete one-chunk input. -/
theorem C8_deterministic_transcripts_witness :
    (transcribe_audio [fun _ => RecogResult.success "hi"] 3 5).1 =
      (transcribe_audio [fun _ => RecogResult.success "hi"] 3 5).1 :=
  C8_deterministic_transcripts [fun _ => RecogResult.success "hi"]
    [fun _ => RecogResult.success "hi"] 3 3 5 5 rfl rfl rfl

/-- C9: for every nonempty audio stream in which no silence gap is detected
(no run of at least 500 ms below -40 dBFS), the segmenter returns exactly
one chunk equal to the whole input. -/
theorem C9_no_silence_single_chunk (audio : List Int) (hne : audio ≠ [])
    (hgaps : silenceGaps audio = []) :
    split_on_silence audio = [audio] := by
  unfold split_on_silence
  rw [hgaps]
  unfold chunksFrom
  have hlen : 0 < audio.length := List.length_pos.mpr hne
  simp [hlen]

/-- Witness for C9: a single loud sample has no silence gap. -/
theorem C9_no_silence_single_chunk_witness :
    silenceGaps [0] = [] ∧ split_on_silence [0] = [[0]] :=
  ⟨by decide, C9_no_silence_single_chunk [0] (by decide) (by decide)⟩

/-- C10: when `max_retries` is zero or negative (Python's `range` is then
empty; nothing in the code enforces the spec's positivity precondition),
`transcribe_audio` makes zero recognition attempts, returns the empty
transcript, and still creates and removes each chunk's temporary file. -/
theorem C10_nonpositive_retries (chunks : List (Nat → RecogResult))
    (mr rd : Int) (hmr : mr ≤ 0) :
    (transcribe_audio chunks mr rd).1 = "" ∧
    countAttempts (transcribe_audio chunks mr rd).2 = 0 ∧
    (transcribe_audio chunks mr rd).2 = tempOnlyTrace 0 chunks.length := by
  have h0 : mr.toNat = 0 := by omega
  have heq := processFrom_noRetries mr rd h0 chunks 0
  unfold transcribe_audio
  rw [heq]
  exact ⟨rfl, countAttempts_tempOnly chunks.length 0, rfl⟩

/-- Witness for C10 at `max_retries = -1` on a one-chunk input. -/
theorem C10_nonpositive_retries_witness :
    (transcribe_audio [fun _ => RecogResult.success "x"] (-1) 5).1 = "" ∧
    countAttempts (transcribe_audio [fun _ => RecogResult.success "x"] (-1) 5).2 = 0 ∧
    (transcribe_audio [fun _ => RecogResult.success "x"] (-1) 5).2 =
      tempOnlyTrace 0 1 :=
  C10_nonpositive_retries [fun _ => RecogResult.success "x"] (-1) 5 (by decide)

end GetToThePoint
